import Mathlib

/-!
Verification of the canonicalization, signing, dispatch and validation logic of the
`deno_aliyun_oss` client library, against a shallow embedding of its TypeScript source.

Conventions of the embedding:
* JS strings are Lean `String`s; byte sequences are `List Nat` (each entry one byte).
* JS objects used as string-keyed maps are association lists (`List (String × _)`)
  in insertion order with the usual JS object update semantics (`objSet`, `objAssign`).
* `string | null | undefined` parameters are `Option String` (`none` models both
  `null` and `undefined`); JS truthiness for such values is `jsTruthy`.
* External collaborators (the HMAC and SHA-256 primitives, the XML parser, the HTTP
  transport and the filesystem) are parameters of the functions that call them.
* `String.prototype.localeCompare` (the JS default-locale collator) is modelled for
  ASCII data by `localeLe`: a primary pass that compares letters case-insensitively,
  a secondary pass that puts lowercase before uppercase, and a final code-point
  tiebreak.  `Array.prototype.sort` (guaranteed stable since ES2019) is modelled by
  `List.insertionSort`, which is stable.
-/

namespace AliyunOss

/-! ## JS string primitives -/

/-- ASCII uppercase test (`A`–`Z`). -/
def isAsciiUpper (c : Char) : Bool :=
  65 ≤ c.toNat && c.toNat ≤ 90

/-- ASCII lowercase test (`a`–`z`). -/
def isAsciiLower (c : Char) : Bool :=
  97 ≤ c.toNat && c.toNat ≤ 122

/-- ASCII digit test. -/
def isAsciiDigit (c : Char) : Bool :=
  48 ≤ c.toNat && c.toNat ≤ 57

/-- Lower-case one ASCII character (model of JS `toLowerCase` per character). -/
def jsLowerChar (c : Char) : Char :=
  if isAsciiUpper c then Char.ofNat (c.toNat + 32) else c

/-- Model of `String.prototype.toLowerCase`, exact for ASCII strings. -/
def jsToLowerCase (s : String) : String :=
  ⟨s.data.map jsLowerChar⟩

/-- JS whitespace, restricted to its ASCII part (tab, LF, VT, FF, CR, space). -/
def isJsWhitespace (c : Char) : Bool :=
  (9 ≤ c.toNat && c.toNat ≤ 13) || c.toNat = 32

/-- Model of `String.prototype.trim`: strip whitespace from both ends. -/
def jsTrim (s : String) : String :=
  ⟨((s.data.dropWhile isJsWhitespace).reverse.dropWhile isJsWhitespace).reverse⟩

/-- Model: `s.startsWith(p)` as a structural prefix test. -/
def jsStartsWith (s p : String) : Bool :=
  p.data.isPrefixOf s.data

/-- Model: `s.split("/")` on the character list: split at every slash, keeping empty
segments, so the empty string yields `[""]` just as in JS. -/
def splitSlashAux : List Char → List Char → List String
  | [], acc => [⟨acc.reverse⟩]
  | c :: cs, acc =>
    if c.toNat = 47 then ⟨acc.reverse⟩ :: splitSlashAux cs []
    else splitSlashAux cs (c :: acc)

/-- Model: `s.split("/")`. -/
def splitSlash (s : String) : List String :=
  splitSlashAux s.data []

/-- Model: `parts.join(sep)` / `String.intercalate`, structurally. -/
def jsJoin (sep : String) : List String → String
  | [] => ""
  | [x] => x
  | x :: xs => x ++ sep ++ jsJoin sep xs

/-- Primary collation weight of a character: letters compare case-insensitively. -/
def primaryWeight (c : Char) : Nat :=
  if isAsciiUpper c then c.toNat + 32 else c.toNat

/-- Primary collation key of a string. -/
def primKey (s : String) : List Nat :=
  s.data.map primaryWeight

/-- Case collation weight: lowercase (and non-letters) before uppercase. -/
def caseWeight (c : Char) : Nat :=
  if isAsciiUpper c then 1 else 0

/-- Case collation key of a string. -/
def caseKey (s : String) : List Nat :=
  s.data.map caseWeight

/-- The code points of a string; lexicographic comparison of these keys is
ordinal string order. -/
def codeKey (s : String) : List Nat :=
  s.data.map Char.toNat

/-- Model: the relation `localeLe s t`: model of `s.localeCompare(t) <= 0` for the default JS locale on
ASCII data: primary pass is case-insensitive, ties are broken by case (lowercase
first) and finally by code points. -/
def localeLe (s t : String) : Prop :=
  primKey s < primKey t ∨
    (primKey s = primKey t ∧
      (caseKey s < caseKey t ∨ (caseKey s = caseKey t ∧ codeKey s ≤ codeKey t)))

instance : DecidableRel localeLe := fun s t => by
  unfold localeLe; infer_instance

/-- The strict version of `localeLe`. -/
def localeLt (s t : String) : Prop :=
  localeLe s t ∧ s ≠ t

instance : IsTotal String localeLe :=
  ⟨fun s t => by
    rcases lt_trichotomy (primKey s) (primKey t) with h | h | h
    · exact Or.inl (Or.inl h)
    · rcases lt_trichotomy (caseKey s) (caseKey t) with h2 | h2 | h2
      · exact Or.inl (Or.inr ⟨h, Or.inl h2⟩)
      · rcases le_total (codeKey s) (codeKey t) with h3 | h3
        · exact Or.inl (Or.inr ⟨h, Or.inr ⟨h2, h3⟩⟩)
        · exact Or.inr (Or.inr ⟨h.symm, Or.inr ⟨h2.symm, h3⟩⟩)
      · exact Or.inr (Or.inr ⟨h.symm, Or.inl h2⟩)
    · exact Or.inr (Or.inl h)⟩

instance : IsTrans String localeLe :=
  ⟨fun s t u h1 h2 => by
    rcases h1 with h1 | ⟨hp1, h1⟩
    · rcases h2 with h2 | ⟨hp2, _⟩
      · exact Or.inl (lt_trans h1 h2)
      · exact Or.inl (hp2 ▸ h1)
    · rcases h2 with h2 | ⟨hp2, h2⟩
      · exact Or.inl (hp1 ▸ h2)
      · refine Or.inr ⟨hp1.trans hp2, ?_⟩
        rcases h1 with h1 | ⟨hc1, h1⟩
        · rcases h2 with h2 | ⟨hc2, _⟩
          · exact Or.inl (lt_trans h1 h2)
          · exact Or.inl (hc2 ▸ h1)
        · rcases h2 with h2 | ⟨hc2, h2⟩
          · exact Or.inl (hc1 ▸ h2)
          · exact Or.inr ⟨hc1.trans hc2, le_trans h1 h2⟩⟩

/-! Sorting with a key-based comparator, as the source does with
`entries.sort((e1, e2) => e1[0].localeCompare(e2[0]))`.  `List.insertionSort`
is stable, matching the guaranteed stability of `Array.prototype.sort`. -/

/-- The comparator used on object entries: order by key under `localeLe`. -/
def entryLe {β : Type} (e1 e2 : String × β) : Prop :=
  localeLe e1.1 e2.1

instance {β : Type} : DecidableRel (entryLe (β := β)) := fun e1 e2 => by
  unfold entryLe; infer_instance

instance {β : Type} : IsTotal (String × β) entryLe :=
  ⟨fun a b => IsTotal.total (r := localeLe) a.1 b.1⟩

instance {β : Type} : IsTrans (String × β) entryLe :=
  ⟨fun _ _ _ h1 h2 => IsTrans.trans (r := localeLe) _ _ _ h1 h2⟩

/-- Model: `Array.prototype.sort` with the key comparator (stable). -/
def jsSortEntries {β : Type} (l : List (String × β)) : List (String × β) :=
  List.insertionSort entryLe l


/-! ## Percent- and hex-encoding -/

/-- Uppercase hex digit of a value below 16. -/
def hexDigitUpper (n : Nat) : Char :=
  if n < 10 then Char.ofNat (48 + n) else Char.ofNat (65 + (n - 10))

/-- Lowercase hex digit of a value below 16. -/
def hexDigitLower (n : Nat) : Char :=
  if n < 10 then Char.ofNat (48 + n) else Char.ofNat (97 + (n - 10))

/-- Source: `encodeHex` from `std/encoding/hex.ts`: two lowercase hex digits per byte. -/
def encodeHex (bytes : List Nat) : String :=
  ⟨bytes.flatMap (fun b => [hexDigitLower ((b / 16) % 16), hexDigitLower (b % 16)])⟩

/-- UTF-8 encoding of one code point (what `TextEncoder.encode` emits per char). -/
def utf8Char (c : Char) : List Nat :=
  let n := c.toNat
  if n < 128 then [n]
  else if n < 2048 then [192 + n / 64, 128 + n % 64]
  else if n < 65536 then [224 + n / 4096, 128 + (n / 64) % 64, 128 + n % 64]
  else [240 + n / 262144, 128 + (n / 4096) % 64, 128 + (n / 64) % 64, 128 + n % 64]

/-- Model: `new TextEncoder().encode(s)`: the UTF-8 bytes of a string. -/
def utf8 (s : String) : List Nat :=
  s.data.flatMap utf8Char

/-- The characters `encodeURIComponent` leaves unescaped:
`A`–`Z`, `a`–`z`, `0`–`9`, and `- _ . ! ~ * ( )` together with the apostrophe
(code 39). -/
def uriUnreserved (c : Char) : Bool :=
  isAsciiUpper c || isAsciiLower c || isAsciiDigit c ||
  c.toNat = 45 || c.toNat = 95 || c.toNat = 46 || c.toNat = 33 ||
  c.toNat = 126 || c.toNat = 42 || c.toNat = 39 || c.toNat = 40 || c.toNat = 41

/-- JS `encodeURIComponent`: unreserved characters are kept, every other
character is replaced by `%HH` (uppercase hex) for each of its UTF-8 bytes. -/
def encodeURIComponent (s : String) : String :=
  ⟨s.data.flatMap (fun c =>
    if uriUnreserved c then [c]
    else (utf8Char c).flatMap (fun b =>
      [Char.ofNat 37, hexDigitUpper ((b / 16) % 16), hexDigitUpper (b % 16)]))⟩


/-! ## JS values and object-map primitives -/

/-- A value of the TS union `string | number | boolean | null | undefined`
used for query maps.  JS numbers are modelled as integers (the library only ever
places integers in query values and the claims only mention integers). -/
inductive QueryValue
  | str (s : String)
  | num (n : Int)
  | bool (b : Bool)
  | null
  | undefined
deriving DecidableEq

/-- JS template-literal coercion of a query value to a string. -/
def QueryValue.jsToString : QueryValue → String
  | .str s => s
  | .num n => ToString.toString n
  | .bool true => "true"
  | .bool false => "false"
  | .null => "null"
  | .undefined => "undefined"

/-- JS truthiness of a `string | null | undefined` value: `null`, `undefined`
and the empty string are falsy. -/
def jsTruthy : Option String → Bool
  | none => false
  | some s => s ≠ ""

/-- Source: `isBlank` from `helper.ts`: `null`/`undefined` or blank after trimming. -/
def isBlank : Option String → Bool
  | none => true
  | some s => (jsTrim s).length = 0

/-- Model: `obj[k] = v` on a JS object modelled as an association list: replace the
value in place at the (unique) existing occurrence of the key, otherwise
append the new entry.  JS objects never hold a key twice, so the association
lists built by the embedding are duplicate-free. -/
def objSet {β : Type} : List (String × β) → String → β → List (String × β)
  | [], k, v => [(k, v)]
  | e :: m, k, v => if e.1 = k then (k, v) :: m else e :: objSet m k v

/-- Model: `Object.assign(base, src)`: copy the entries of `src` into `base` in order. -/
def objAssign (base src : List (String × String)) : List (String × String) :=
  src.foldl (fun acc e => objSet acc e.1 e.2) base

/-- Reading `obj[k]` from a JS object modelled as an association list. -/
def objGet (m : List (String × String)) (k : String) : Option String :=
  (m.find? (fun e => e.1 = k)).map (fun e => e.2)

/-! ## Canonicalizer (`src/operation.ts`) -/

/-- Source: `Operation.#buildCanonicalUri` (`operation.ts:31`): both bucket and key
present gives `/bucket/` followed by the key percent-encoded segment by
segment; bucket only gives `/bucket/`; key only, or neither, gives `/`.
The presence tests are JS truthiness, so an empty string counts as absent. -/
def buildCanonicalUri (bucketName objectKey : Option String) : String :=
  if jsTruthy bucketName && jsTruthy objectKey then
    let encodedObjectKey :=
      jsJoin "/" ((splitSlash (objectKey.getD "")).map encodeURIComponent)
    "/" ++ encodeURIComponent (bucketName.getD "") ++ "/" ++ encodedObjectKey
  else if jsTruthy bucketName && !jsTruthy objectKey then
    "/" ++ encodeURIComponent (bucketName.getD "") ++ "/"
  else if !jsTruthy bucketName && jsTruthy objectKey then
    "/"
  else
    "/"

/-- Source: `Operation.#buildRequestUri` (`operation.ts:56`): the wire path, the same
per-segment encoding without the bucket prefix. -/
def buildRequestUri (objectKey : Option String) : String :=
  if jsTruthy objectKey then
    "/" ++ jsJoin "/" ((splitSlash (objectKey.getD "")).map encodeURIComponent)
  else
    "/"

/-- One rendered query entry (`operation.ts:72`): a `null`/`undefined`/blank
value yields the bare key, any other value yields `key=encodeURIComponent(value)`. -/
def renderQueryEntry (e : String × QueryValue) : String :=
  let s :=
    match e.2 with
    | .null => ""
    | .undefined => ""
    | v => if (jsTrim v.jsToString).length = 0 then ""
           else "=" ++ encodeURIComponent v.jsToString
  e.1 ++ s

/-- Source: `Operation.#buildCanonicalQueryString` (`operation.ts:65`): sort the
entries with `localeCompare` on the keys, render each and join with `&`;
an absent query yields the empty string. -/
def buildCanonicalQueryString (query : Option (List (String × QueryValue))) : String :=
  match query with
  | none => ""
  | some q => jsJoin "&" ((jsSortEntries q).map renderQueryEntry)

/-- Source: `Operation.#buildCanonicalHeaders` (`operation.ts:83`): lower-case each
key, trim each value, sort by key with `localeCompare`, join `key:value` lines
with `\n` and append a final `\n`; an absent header set yields just `\n`. -/
def buildCanonicalHeaders (headers : Option (List (String × String))) : String :=
  match headers with
  | none => "\n"
  | some hs =>
    let sorted := jsSortEntries (hs.map (fun e => (jsToLowerCase e.1, jsTrim e.2)))
    jsJoin "\n" (sorted.map (fun e => e.1 ++ ":" ++ e.2)) ++ "\n"

/-- The header-selection predicate of `doRequest` (`operation.ts:125`): keep
`content-type`, `content-md5`, `host` and every `x-oss-` header. -/
def signedHeaderTest (k : String) : Bool :=
  let s := jsToLowerCase k
  s = "content-type" || s = "content-md5" || s = "host" ||
    jsStartsWith s "x-oss-"

/-- Source: `headersToSign` as built by `doRequest` (`operation.ts:123`): the entries
of the assembled header object passing `signedHeaderTest`, in object order. -/
def headersToSign (allHeaders : List (String × String)) : List (String × String) :=
  allHeaders.filter (fun e => signedHeaderTest e.1)

/-- Source: `additionalHeaders` as built by `doRequest` (`operation.ts:134`): the keys
of `headersToSign`, lower-cased, sorted with `localeCompare`, joined with `;`. -/
def additionalHeadersOf (toSign : List (String × String)) : String :=
  jsJoin ";"
    (List.insertionSort localeLe ((toSign.map (fun e => e.1)).map jsToLowerCase))

/-! Spec-side definitions, following the words of the specification, for comparison
with the source translations above. -/

/-- The query-entry rendering rule as the spec words it: a `null`, `undefined`
or blank-after-trimming value gives the bare key, anything else gives
`key=percent-encoded-value`. -/
def specRenderQueryEntry (e : String × QueryValue) : String :=
  if e.2 = QueryValue.null ∨ e.2 = QueryValue.undefined ∨ jsTrim e.2.jsToString = ""
  then e.1
  else e.1 ++ "=" ++ encodeURIComponent e.2.jsToString

/-- Ascending ordinal (code-point) order on entry keys, the order claimed for
the canonical query string. -/
def ordinalEntryLe {β : Type} (e1 e2 : String × β) : Prop :=
  codeKey e1.1 ≤ codeKey e2.1

instance {β : Type} : DecidableRel (ordinalEntryLe (β := β)) := fun e1 e2 => by
  unfold ordinalEntryLe; infer_instance

/-- The canonical query string as claimed: identical rendering, but with the
entries sorted in ascending ordinal key order. -/
def ordinalCanonicalQueryString (q : List (String × QueryValue)) : String :=
  jsJoin "&" ((List.insertionSort ordinalEntryLe q).map renderQueryEntry)

/-- The spec header-selection rule, as a proposition on the header name. -/
def specSignedHeaderKey (k : String) : Prop :=
  jsToLowerCase k = "content-type" ∨ jsToLowerCase k = "content-md5" ∨
    jsToLowerCase k = "host" ∨ jsStartsWith (jsToLowerCase k) "x-oss-" = true


/-! ## Signer (`doRequest`, `operation.ts:136`–`172`)

The HMAC-SHA256 and SHA-256 primitives come from external libraries
(`hmac/mod.ts` and `std/crypto`), so the signing pipeline is parametrised over
them: `hmac key msg` and `sha256 msg` operate on byte sequences. -/

/-- The canonical request (`operation.ts:138`): the five-line string of method,
canonical URI, canonical query string, canonical headers, additional headers
and the hashed payload, which is hardcoded to `UNSIGNED-PAYLOAD`. -/
def canonicalRequestOf (method canonicalUri canonicalQuery canonicalHeaders
    additionalHeaders : String) : String :=
  method ++ "\n" ++ canonicalUri ++ "\n" ++ canonicalQuery ++ "\n" ++
    canonicalHeaders ++ "\n" ++ additionalHeaders ++ "\n" ++ "UNSIGNED-PAYLOAD"

/-- The key-derivation chain of `doRequest` (`operation.ts:155`–`166`),
translated line by line: `keyData` starts as the UTF-8 bytes of
`aliyun_v4` + secret and is rechained through four HMAC applications. -/
def doRequestSigningKey (hmac : List Nat → List Nat → List Nat)
    (accessKeySecret region dateString : String) : List Nat :=
  let keyData := utf8 ("aliyun_v4" ++ accessKeySecret)
  let keyData := hmac keyData (utf8 dateString)
  let keyData := hmac keyData (utf8 region)
  let keyData := hmac keyData (utf8 "oss")
  let keyData := hmac keyData (utf8 "aliyun_v4_request")
  keyData

/-- The `scope` string of `doRequest` (`operation.ts:147`). -/
def scopeOf (dateString region : String) : String :=
  dateString ++ "/" ++ region ++ "/oss/aliyun_v4_request"

/-- The `strToSign` string of `doRequest` (`operation.ts:149`). -/
def strToSignOf (dateTimeString scope hashedRequest : String) : String :=
  "OSS4-HMAC-SHA256" ++ "\n" ++ dateTimeString ++ "\n" ++ scope ++ "\n" ++
    hashedRequest

/-- The hex signature computed by `doRequest` (`operation.ts:141`–`169`):
hash the canonical request, build the string to sign, and HMAC it with the
derived signing key. -/
def doRequestSignature (hmac : List Nat → List Nat → List Nat)
    (sha256 : List Nat → List Nat)
    (accessKeySecret region dateString dateTimeString canonicalRequest : String) :
    String :=
  let hashedRequest := encodeHex (sha256 (utf8 canonicalRequest))
  let scope := scopeOf dateString region
  let strToSign := strToSignOf dateTimeString scope hashedRequest
  encodeHex
    (hmac (doRequestSigningKey hmac accessKeySecret region dateString)
      (utf8 strToSign))

/-- The `Authorization` header value built by `doRequest` (`operation.ts:171`). -/
def doRequestAuthorization (hmac : List Nat → List Nat → List Nat)
    (sha256 : List Nat → List Nat)
    (accessKeyId accessKeySecret region dateString dateTimeString
      canonicalRequest additionalHeaders : String) : String :=
  "OSS4-HMAC-SHA256" ++ " Credential=" ++ accessKeyId ++ "/" ++
    scopeOf dateString region ++ ",AdditionalHeaders=" ++ additionalHeaders ++
    ",Signature=" ++
    doRequestSignature hmac sha256 accessKeySecret region dateString
      dateTimeString canonicalRequest

/-! ## Request executor: header assembly (`operation.ts:100`–`121`) -/

/-- Source: `domainName` (`operation.ts:103`): bucket-prefixed endpoint, with the
prefix and its dot omitted when the bucket name is absent (JS-falsy). -/
def domainNameOf (bucketName : Option String) (endpoint : String) : String :=
  (if jsTruthy bucketName then bucketName.getD "" else "") ++
    (if jsTruthy bucketName then "." else "") ++ endpoint

/-- The header object assembled by `doRequest` (`operation.ts:108`–`121`):
the five base headers merged with the caller-supplied headers via
`Object.assign` (caller entries overwrite base entries), then
`content-length` forced to `"0"` for a PUT without body. -/
def assembleAllHeaders (httpDate domainName dateTimeString : String)
    (callerHeaders : List (String × String)) (method : String)
    (hasBody : Bool) : List (String × String) :=
  let base : List (String × String) :=
    [("date", httpDate), ("host", domainName), ("x-sdk-client", "deno/0.1.0"),
     ("x-oss-content-sha256", "UNSIGNED-PAYLOAD"), ("x-oss-date", dateTimeString)]
  let allHeaders := objAssign base callerHeaders
  if method = "PUT" && !hasBody then objSet allHeaders "content-length" "0"
  else allHeaders

/-! ## Request executor: response classification (`operation.ts:194`–`219`)

The XML parser is external (`xml/mod.ts`); it is abstracted as a function
returning the `Error` node of the document when one exists. -/

/-- The fields of the provider XML error envelope (`doc.Error`). -/
structure ErrorNode where
  code : Option String
  message : Option String
  requestId : Option String
  hostId : Option String
  bucketName : Option String
  ec : Option String
  recommendDoc : Option String
deriving DecidableEq

/-- The diagnostic state of a `ClientError` (`common.ts`): the message plus
the private fields set by the constructor. -/
structure ClientErrorData where
  message : Option String
  code : Option String
  bucketName : Option String
  requestId : Option String
  hostId : Option String
  ec : Option String
  recommendDoc : Option String
  status : Option Nat
deriving DecidableEq

/-- Model: `new ClientError(message)` with all diagnostic fields left undefined. -/
def mkClientError (message : String) : ClientErrorData :=
  ⟨some message, none, none, none, none, none, none, none⟩

/-- Source: `ClientError.fromResponseContent` (`common.ts:75`): if the parsed document
has no `Error` node the result is a plain `unknown error`; otherwise the
fields of the node populate the structured error (and `status` stays unset). -/
def fromResponseContent (parseError : String → Option ErrorNode)
    (responseContent : String) : ClientErrorData :=
  match parseError responseContent with
  | none => mkClientError "unknown error"
  | some n =>
    ⟨n.message, n.code, n.bucketName, n.requestId, n.hostId, n.ec,
      n.recommendDoc, none⟩

/-- The result value of `doRequest` (`ResponseResult` in `common.ts`). -/
structure ResponseResult where
  headers : List (String × String)
  content : Option String
deriving DecidableEq

/-- The status classification of `doRequest` (`operation.ts:197`–`219`):
status ≥ 500 throws a generic server error carrying the status in its
message; 400 ≤ status < 500 throws the structured error parsed from the
body; anything else returns the headers and body text. -/
def classifyResponse (parseError : String → Option ErrorNode) (status : Nat)
    (content : String) (responseHeaders : List (String × String)) :
    Except ClientErrorData ResponseResult :=
  if 500 ≤ status then
    .error (mkClientError ("aliyun oss server response status: " ++ toString status))
  else if 400 ≤ status && status < 500 then
    .error (fromResponseContent parseError content)
  else
    .ok ⟨responseHeaders, some content⟩

/-! ## Bucket listing (`src/bucket.ts:208`, `listAllBuckets`)

One page request (`#listBuckets`, which performs `doRequest` plus XML
parsing) is abstracted as a function from the requested marker to the parsed
page.  Only the loop-relevant fields of `ListBucketsResult` are kept. -/

/-- A parsed page of `ListBucketsResult`: the buckets plus the continuation
fields (both optional in the XML). -/
structure ListBucketsPage (β : Type) where
  buckets : List β
  isTruncated : Option Bool
  nextMarker : Option String

/-- Truthiness of the parsed `isTruncated` flag. -/
def truncatedTruthy : Option Bool → Bool
  | some true => true
  | _ => false

/-- The `while (true)` loop of `listAllBuckets` (`bucket.ts:212`–`227`),
with explicit fuel (`none` when the fuel runs out before the loop breaks) and
a trace of the markers of the issued page requests, in order.  Each iteration
sends the request, appends the page buckets, and continues exactly when
`isTruncated` and `nextMarker` are both truthy, with the next marker taken
from the response just received. -/
def listAllBucketsLoop {β : Type}
    (listBucketsPage : Option String → ListBucketsPage β) :
    Nat → Option String → List β → List (Option String) →
    Option (List β × List (Option String))
  | 0, _, _, _ => none
  | fuel + 1, marker, acc, trace =>
    let q : Option String := if jsTruthy marker then marker else none
    let result := listBucketsPage q
    let acc2 := acc ++ result.buckets
    let trace2 := trace ++ [q]
    if truncatedTruthy result.isTruncated && jsTruthy result.nextMarker then
      listAllBucketsLoop listBucketsPage fuel result.nextMarker acc2 trace2
    else
      some (acc2, trace2)

/-- Source: `listAllBuckets` (`bucket.ts:208`): run the loop from a `null` marker with
an empty accumulator. -/
def listAllBuckets {β : Type}
    (listBucketsPage : Option String → ListBucketsPage β) (fuel : Nat) :
    Option (List β × List (Option String)) :=
  listAllBucketsLoop listBucketsPage fuel none [] []

/-! ## Object operations: validation and request construction

The request dispatch (`doRequest` / `sendRequest` / `generatePresignedUrl`)
is abstracted as a function parameter; every operation below returns the list
of requests it hands to that dispatcher, so "no HTTP request is issued" is
the first component being `[]`. -/

/-- The fields of `RequestConfig` (`common.ts`) used by the embedding; the
body stream is reduced to its presence. -/
structure RequestConfig where
  method : String
  bucketName : Option String := none
  objectKey : Option String := none
  headers : List (String × String) := []
  query : List (String × QueryValue) := []
  hasBody : Bool := false
deriving DecidableEq

/-- Errors crossing the embedded operations: a `ClientError` or any other
JS exception (filesystem failures rethrown as-is). -/
inductive JsError
  | client (e : ClientErrorData)
  | other
deriving DecidableEq

/-- Model: `s.substring(1)`. -/
def jsDropFirst (s : String) : String :=
  ⟨s.data.drop 1⟩

/-- Model: `s.endsWith(p)`. -/
def jsEndsWith (s p : String) : Bool :=
  p.data.isSuffixOf s.data

/-- Source: `camelToKebab` from `helper.ts:56`: every uppercase letter is replaced by
a dash followed by its lowercase form. -/
def camelToKebab (k : String) : String :=
  ⟨k.data.flatMap (fun c =>
    if isAsciiUpper c then [Char.ofNat 45, jsLowerChar c] else [c])⟩

/-- Source: `ObjectOperation.createFolder` (`object.ts:60`): validate, normalise the
folder path into an object key (strip one leading slash, ensure a trailing
slash) and issue a bodyless PUT. -/
def createFolder (doReq : RequestConfig → Except ClientErrorData ResponseResult)
    (bucketName folderPath : Option String) :
    List RequestConfig × Except ClientErrorData Unit :=
  if isBlank bucketName || isBlank folderPath then
    ([], .error (mkClientError "invalid bucket name or folder path to create a new folder"))
  else
    let objectKey := folderPath.getD ""
    let objectKey := if jsStartsWith objectKey "/" then jsDropFirst objectKey else objectKey
    let objectKey := if jsEndsWith objectKey "/" then objectKey else objectKey ++ "/"
    let rc : RequestConfig :=
      { method := "PUT", bucketName := bucketName, objectKey := some objectKey }
    ([rc], (doReq rc).map (fun _ => ()))

/-- Source: `PutObjectOptions` (`object.ts:16`).  `contentLength` is the
template-literal string form of the TS `bigint` (which is how `putFile`
stores it); `meta` and `tagging` values of type `string | number | boolean`
are `QueryValue`s without the null cases. -/
structure PutObjectOptions where
  cacheControl : Option String := none
  contentDisposition : Option String := none
  contentEncoding : Option String := none
  contentType : Option String := none
  contentLength : Option String := none
  contentMd5 : Option String := none
  expires : Option String := none
  forbidOverwrite : Option Bool := none
  serverSideEncryption : Option String := none
  serverSideDataEncryption : Option String := none
  serverSideEncryptionKeyId : Option String := none
  objectAcl : Option String := none
  storageClass : Option String := none
  meta : Option (List (String × QueryValue)) := none
  tagging : Option (List (String × QueryValue)) := none

/-- Model: `if (options?.field) headers[name] = options.field` for a string field:
the header is set only when the value is present and truthy. -/
def setHeaderIfTruthy (headers : List (String × String)) (name : String)
    (v : Option String) : List (String × String) :=
  if jsTruthy v then objSet headers name (v.getD "") else headers

/-- Source: `PutObjectResult` (`object.ts:37`) as read off the response headers. -/
structure PutObjectResult where
  contentMd5 : Option String
  versionId : Option String
deriving DecidableEq

/-- Source: `ObjectOperation.putStream` (`object.ts:87`): validate bucket and key,
strip one leading slash from the key, build the request headers from the
options in source order, and issue a PUT with the stream as body. -/
def putStream (doReq : RequestConfig → Except ClientErrorData ResponseResult)
    (bucketName objectKey : Option String) (options : Option PutObjectOptions) :
    List RequestConfig × Except ClientErrorData PutObjectResult :=
  if isBlank bucketName || isBlank objectKey then
    ([], .error (mkClientError "invalid bucket name or folder path to put object"))
  else
    let sanitizedObjectKey := objectKey.getD ""
    let sanitizedObjectKey :=
      if jsStartsWith sanitizedObjectKey "/" then jsDropFirst sanitizedObjectKey
      else sanitizedObjectKey
    let o := options.getD {}
    let headers : List (String × String) := []
    let headers := setHeaderIfTruthy headers "content-type" o.contentType
    let headers := setHeaderIfTruthy headers "content-length" o.contentLength
    let headers := setHeaderIfTruthy headers "content-md5" o.contentMd5
    let headers := setHeaderIfTruthy headers "cache-control" o.cacheControl
    let headers := setHeaderIfTruthy headers "content-disposition" o.contentDisposition
    let headers := setHeaderIfTruthy headers "content-encoding" o.contentEncoding
    let headers := setHeaderIfTruthy headers "expires" o.expires
    let headers :=
      if o.forbidOverwrite = some true then
        objSet headers "x-oss-forbid-overwrite" "true"
      else headers
    let headers := setHeaderIfTruthy headers "x-oss-server-side-encryption" o.serverSideEncryption
    let headers := setHeaderIfTruthy headers "x-oss-server-side-data-encryption" o.serverSideDataEncryption
    let headers := setHeaderIfTruthy headers "x-oss-server-side-encryption-key-id" o.serverSideEncryptionKeyId
    let headers := setHeaderIfTruthy headers "x-oss-object-acl" o.objectAcl
    let headers := setHeaderIfTruthy headers "x-oss-storage-class" o.storageClass
    let headers :=
      match o.meta with
      | none => headers
      | some meta =>
        meta.foldl (fun h e =>
          objSet h ("x-oss-meta-" ++ jsToLowerCase e.1) e.2.jsToString) headers
    let headers :=
      match o.tagging with
      | none => headers
      | some tagging =>
        objSet headers "x-oss-tagging"
          (jsJoin "&" (tagging.map (fun e =>
            encodeURIComponent e.1 ++ "=" ++ encodeURIComponent e.2.jsToString)))
    let rc : RequestConfig :=
      { method := "PUT", bucketName := bucketName,
        objectKey := some sanitizedObjectKey, headers := headers, hasBody := true }
    ([rc],
      (doReq rc).map (fun r =>
        ⟨objGet r.headers "content-md5", objGet r.headers "x-oss-version-id"⟩))

/-- The outcome of the `Deno.open` + `stat` pair at the start of `putFile`. -/
inductive OpenOutcome
  | notFound
  | permissionDenied
  | otherFailure
  | opened (isFile : Bool) (size : Nat)

/-- The observable trace of a file-backed operation: the requests handed to
the dispatcher, whether the local file handle was opened, whether it was
closed again (the `finally` block), and the result. -/
structure FileOpTrace (α : Type) where
  requests : List RequestConfig
  fileOpened : Bool
  fileClosed : Bool
  result : Except JsError α

/-- Source: `ObjectOperation.putFile` (`object.ts:176`; identical to `putObject` of
the later object module): validate the file path, open and stat the file,
reject non-regular and empty files, compute the content MD5 and MIME type
(both external, passed as parameters), merge them under the options of the caller
(`Object.assign`), force the detected MIME type, and delegate to
`putStream`.  The `finally` block closes the handle on every path on which
the `Deno.open` call succeeded, swallowing close errors. -/
def putFile (doReq : RequestConfig → Except ClientErrorData ResponseResult)
    (openFile : OpenOutcome) (md5OfContent : String) (mimeOfExt : Option String)
    (bucketName objectKey filePath : Option String)
    (options : Option PutObjectOptions) : FileOpTrace PutObjectResult :=
  if isBlank filePath then
    ⟨[], false, false, .error (.client (mkClientError "filePath must NOT be emtpy"))⟩
  else
    match openFile with
    | .notFound =>
      ⟨[], false, false,
        .error (.client (mkClientError ("can not find file " ++ filePath.getD "")))⟩
    | .permissionDenied =>
      ⟨[], false, false,
        .error (.client (mkClientError ("can not read file " ++ filePath.getD "")))⟩
    | .otherFailure => ⟨[], false, false, .error .other⟩
    | .opened isFile size =>
      if !isFile then
        ⟨[], true, true,
          .error (.client (mkClientError (filePath.getD "" ++ " is not a regular file")))⟩
      else if size = 0 then
        ⟨[], true, true,
          .error (.client (mkClientError
            (filePath.getD "" ++ " length is 0, can not put to OSS as a regular file")))⟩
      else
        let o := options.getD {}
        let opt : PutObjectOptions :=
          { o with
            contentMd5 := o.contentMd5 <|> some md5OfContent,
            contentLength := o.contentLength <|> some (toString size) }
        let opt :=
          if jsTruthy mimeOfExt then { opt with contentType := mimeOfExt } else opt
        let (reqs, res) := putStream doReq bucketName objectKey (some opt)
        ⟨reqs, true, true, res.mapError .client⟩

/-- Source: `ObjectOperation.headObject` (later object module, line 578): validate,
kebab-case the option entries into request headers, and issue a HEAD request,
returning the response headers. -/
def headObject (doReq : RequestConfig → Except ClientErrorData ResponseResult)
    (bucketName objectKey : Option String) (options : List (String × String)) :
    List RequestConfig × Except ClientErrorData (List (String × String)) :=
  if isBlank bucketName || isBlank objectKey then
    ([], .error (mkClientError "bucketName and objectKey are required, can not be empty"))
  else
    let headers := options.foldl (fun h e => objSet h (camelToKebab e.1) e.2) []
    let rc : RequestConfig :=
      { method := "HEAD", bucketName := bucketName, objectKey := objectKey,
        headers := headers }
    ([rc], (doReq rc).map (fun r => r.headers))

/-- The raw response of the streaming `sendRequest` variant used by
`getObject`: status, buffered text, body presence and headers. -/
structure RawResponse where
  status : Nat
  content : String
  hasBody : Bool
  headers : List (String × String)

/-- Source: `ObjectOperation.getObject` (later object module, line 644): validate the
bucket name and object key (the local file path is not checked), issue a GET,
classify the status, and stream the body into a freshly created local file.
`createOk` models whether `Deno.create(localFilepath)` succeeds. -/
def getObject (send : RequestConfig → RawResponse)
    (parseError : String → Option ErrorNode) (createOk : Bool)
    (bucketName objectKey localFilepath : Option String)
    (options : List (String × String)) :
    List RequestConfig × Except JsError Unit :=
  if isBlank bucketName || isBlank objectKey then
    ([], .error (.client (mkClientError "bucketName and objectKey are required, can not be empty")))
  else
    let headers := options.foldl (fun h e => objSet h (camelToKebab e.1) e.2) []
    let rc : RequestConfig :=
      { method := "GET", bucketName := bucketName, objectKey := objectKey,
        headers := headers }
    let response := send rc
    ([rc],
      if response.status ≠ 200 then
        if response.content ≠ "" then
          .error (.client (fromResponseContent parseError response.content))
        else
          .error (.client
            ⟨some ("Status code is not OK " ++ toString response.status),
              none, none, none, none, none, none, some response.status⟩)
      else if !response.hasBody then
        .error (.client (mkClientError "null respnose body"))
      else if createOk then .ok ()
      else .error .other)

/-- Source: `ObjectOperation.deleteObject` (later object module, line 693): validate,
add the optional `versionId` query parameter, and issue a DELETE. -/
def deleteObject (doReq : RequestConfig → Except ClientErrorData ResponseResult)
    (bucketName objectKey : Option String) (versionId : Option String) :
    List RequestConfig × Except ClientErrorData Unit :=
  if isBlank bucketName || isBlank objectKey then
    ([], .error (mkClientError "bucketName and objectKey are required, can not be empty"))
  else
    let query : List (String × QueryValue) :=
      if jsTruthy versionId then objSet [] "versionId" (.str (versionId.getD ""))
      else []
    let rc : RequestConfig :=
      { method := "DELETE", bucketName := bucketName, objectKey := objectKey,
        query := query }
    ([rc], (doReq rc).map (fun _ => ()))

/-- Model: `SignatureOptions` as used by `signatureUrl`: the expiry, the optional
image-processing directive and content type, the `response*`-named override
entries of the options object, and the additional parameters of the caller. -/
structure SignatureOptions where
  ttlSeconds : Int
  process : Option String := none
  contentType : Option String := none
  responseOverrides : List (String × String) := []
  additionalParameters : Option (List (String × String)) := none

/-- Source: `ObjectOperation.signatureUrl` (later object module, line 720): validate
method, bucket and key, assemble the query (expiry, processing directive,
kebab-cased `response*` overrides, additional parameters) and delegate to the
pre-signing routine (external to the object module, abstracted as
`presign`).  No HTTP request is involved. -/
def signatureUrl (presign : RequestConfig → String)
    (method bucketName objectKey : Option String) (options : SignatureOptions) :
    Except ClientErrorData String :=
  if isBlank method || isBlank bucketName || isBlank objectKey then
    .error (mkClientError "method, bucketName and objectKey are required, can not be empty")
  else
    let headers := setHeaderIfTruthy [] "content-type" options.contentType
    let query : List (String × QueryValue) :=
      [("x-oss-expires", .str (toString options.ttlSeconds))]
    let query :=
      if jsTruthy options.process then
        objSet query "x-oss-process" (.str (options.process.getD ""))
      else query
    let query :=
      (options.responseOverrides.filter (fun e => jsStartsWith e.1 "response")).foldl
        (fun q e => objSet q (camelToKebab e.1) (.str e.2)) query
    let query :=
      match options.additionalParameters with
      | none => query
      | some ps => ps.foldl (fun q e => objSet q e.1 (.str e.2)) query
    .ok (presign
      { method := method.getD "", bucketName := bucketName,
        objectKey := objectKey, headers := headers, query := query })

/-! ## Supporting lemmas -/

theorem string_length_eq_zero_iff (s : String) : s.length = 0 ↔ s = "" := by
  cases s with
  | mk d => cases d <;> simp [String.length, String.ext_iff]

theorem charToNat_injective : Function.Injective Char.toNat :=
  fun a b h => Char.eq_of_val_eq (UInt32.ext h)

theorem codeKey_inj {s t : String} (h : codeKey s = codeKey t) : s = t := by
  have hd : s.data = t.data :=
    List.map_injective_iff.2 charToNat_injective h
  cases s; cases t; exact congrArg String.mk hd

theorem localeLe_antisymm {s t : String} (h1 : localeLe s t) (h2 : localeLe t s) :
    s = t := by
  rcases h1 with h1 | ⟨hp1, h1⟩
  · rcases h2 with h2 | ⟨hp2, _⟩
    · exact absurd (lt_trans h1 h2) (lt_irrefl _)
    · exact absurd (hp2 ▸ h1) (lt_irrefl _)
  · rcases h2 with h2 | ⟨_, h2⟩
    · exact absurd (hp1 ▸ h2) (lt_irrefl _)
    · rcases h1 with h1 | ⟨hc1, h1⟩
      · rcases h2 with h2 | ⟨hc2, _⟩
        · exact absurd (lt_trans h1 h2) (lt_irrefl _)
        · exact absurd (hc2 ▸ h1) (lt_irrefl _)
      · rcases h2 with h2 | ⟨_, h2⟩
        · exact absurd (hc1 ▸ h2) (lt_irrefl _)
        · exact codeKey_inj (le_antisymm h1 h2)

theorem renderQueryEntry_eq_spec (e : String × QueryValue) :
    renderQueryEntry e = specRenderQueryEntry e := by
  rcases e with ⟨k, v⟩
  cases v with
  | str s =>
    by_cases h : jsTrim s = "" <;>
      simp [renderQueryEntry, specRenderQueryEntry, QueryValue.jsToString, h,
        string_length_eq_zero_iff, String.append_assoc]
  | num n =>
    by_cases h : jsTrim (ToString.toString n) = "" <;>
      simp [renderQueryEntry, specRenderQueryEntry, QueryValue.jsToString, h,
        string_length_eq_zero_iff, String.append_assoc]
  | bool b =>
    cases b
    · simp [renderQueryEntry, specRenderQueryEntry, QueryValue.jsToString,
        string_length_eq_zero_iff, String.append_assoc,
        show jsTrim "false" = "false" from by decide,
        show ("false" : String) ≠ "" from by decide]
    · simp [renderQueryEntry, specRenderQueryEntry, QueryValue.jsToString,
        string_length_eq_zero_iff, String.append_assoc,
        show jsTrim "true" = "true" from by decide,
        show ("true" : String) ≠ "" from by decide]
  | null => simp [renderQueryEntry, specRenderQueryEntry]
  | undefined => simp [renderQueryEntry, specRenderQueryEntry]

/-! ## C1: the signing pipeline -/

/-- C1.  For every access key secret, region, date and canonical request, the
signing key is derived by the four chained HMAC-SHA256 steps of the claim
(`key0` is the UTF-8 bytes of `aliyun_v4` + secret, then messages
`dateString`, `region`, `oss`, `aliyun_v4_request` in that order), the
signature is the lowercase hex of HMAC(key4, stringToSign) with
`stringToSign` built from the compact timestamp, the scope and the hex
SHA-256 of the canonical request, and the `Authorization` value is assembled
in the claimed `Credential`/`AdditionalHeaders`/`Signature` format. -/
theorem doRequest_signing_spec
    (hmac : List Nat → List Nat → List Nat) (sha256 : List Nat → List Nat)
    (accessKeyId accessKeySecret region dateString dateTimeString
      canonicalRequest additionalHeaders : String) :
    (doRequestSigningKey hmac accessKeySecret region dateString =
      hmac (hmac (hmac (hmac (utf8 ("aliyun_v4" ++ accessKeySecret))
        (utf8 dateString)) (utf8 region)) (utf8 "oss")) (utf8 "aliyun_v4_request")) ∧
    (scopeOf dateString region =
      dateString ++ "/" ++ region ++ "/oss/aliyun_v4_request") ∧
    (doRequestSignature hmac sha256 accessKeySecret region dateString
        dateTimeString canonicalRequest =
      encodeHex (hmac (doRequestSigningKey hmac accessKeySecret region dateString)
        (utf8 ("OSS4-HMAC-SHA256" ++ "\n" ++ dateTimeString ++ "\n" ++
          scopeOf dateString region ++ "\n" ++
          encodeHex (sha256 (utf8 canonicalRequest)))))) ∧
    (doRequestAuthorization hmac sha256 accessKeyId accessKeySecret region
        dateString dateTimeString canonicalRequest additionalHeaders =
      "OSS4-HMAC-SHA256" ++ " Credential=" ++ accessKeyId ++ "/" ++
        scopeOf dateString region ++ ",AdditionalHeaders=" ++ additionalHeaders ++
        ",Signature=" ++
        doRequestSignature hmac sha256 accessKeySecret region dateString
          dateTimeString canonicalRequest) :=
  ⟨rfl, rfl, rfl, rfl⟩

/-! ## C4: canonical and request URIs -/

/-- C4.  `buildCanonicalUri` returns `/bucket/` plus the per-segment
percent-encoded key when both are present (JS-truthy), `/bucket/` when only
the bucket is present, and `/` when only the key or neither is present;
`buildRequestUri` applies the same per-segment encoding without the bucket
prefix; slashes between segments survive while a space or `#` inside a
segment is escaped, as in the concrete examples. -/
theorem buildCanonicalUri_spec (b k : String) :
    (buildCanonicalUri (some b) (some k) =
      if b ≠ "" ∧ k ≠ "" then
        "/" ++ encodeURIComponent b ++ "/" ++
          jsJoin "/" ((splitSlash k).map encodeURIComponent)
      else if b ≠ "" then "/" ++ encodeURIComponent b ++ "/"
      else "/") ∧
    (buildCanonicalUri (some b) none =
      if b ≠ "" then "/" ++ encodeURIComponent b ++ "/" else "/") ∧
    (buildCanonicalUri none (some k) = "/") ∧
    (buildCanonicalUri none none = "/") ∧
    (buildRequestUri (some k) =
      if k ≠ "" then "/" ++ jsJoin "/" ((splitSlash k).map encodeURIComponent)
      else "/") ∧
    (buildRequestUri none = "/") ∧
    (buildCanonicalUri (some "my-bucket") (some "a/b c.png") =
      "/my-bucket/a/b%20c.png") ∧
    (buildRequestUri (some "foo/bar/b#z.png") = "/foo/bar/b%23z.png") ∧
    (encodeURIComponent " " = "%20" ∧ encodeURIComponent "#" = "%23" ∧
      encodeURIComponent "/" = "%2F") := by
  refine ⟨?_, ?_, ?_, ?_, ?_, ?_, by decide, by decide, by decide, by decide, by decide⟩
  · by_cases hb : b = "" <;> by_cases hk : k = "" <;>
      simp [buildCanonicalUri, jsTruthy, hb, hk]
  · by_cases hb : b = "" <;> simp [buildCanonicalUri, jsTruthy, hb]
  · simp [buildCanonicalUri, jsTruthy]
  · simp [buildCanonicalUri, jsTruthy]
  · by_cases hk : k = "" <;> simp [buildRequestUri, jsTruthy, hk]
  · simp [buildRequestUri, jsTruthy]

/-! ## C7: response classification -/

/-- C7.  A status of 500 or more fails with the generic server error carrying
the status code in its message; a status in [400, 500) fails with the
structured error parsed from the XML body — whose `code`, `requestId` and the
other diagnostic fields equal the `Error` fields of the node, falling back to
`unknown error` when no `Error` node is found; any other status returns the
headers and body content. -/
theorem classifyResponse_spec (parseError : String → Option ErrorNode)
    (status : Nat) (content : String)
    (responseHeaders : List (String × String)) :
    (500 ≤ status →
      classifyResponse parseError status content responseHeaders =
        .error (mkClientError
          ("aliyun oss server response status: " ++ toString status))) ∧
    (400 ≤ status → status < 500 →
      classifyResponse parseError status content responseHeaders =
        .error (fromResponseContent parseError content)) ∧
    (status < 400 →
      classifyResponse parseError status content responseHeaders =
        .ok ⟨responseHeaders, some content⟩) ∧
    (parseError content = none →
      fromResponseContent parseError content = mkClientError "unknown error") ∧
    (∀ n : ErrorNode, parseError content = some n →
      fromResponseContent parseError content =
        ⟨n.message, n.code, n.bucketName, n.requestId, n.hostId, n.ec,
          n.recommendDoc, none⟩) := by
  refine ⟨fun h5 => ?_, fun h4 h4b => ?_, fun hok => ?_, fun hn => ?_, fun n hn => ?_⟩
  · simp [classifyResponse, h5]
  · simp [classifyResponse, h4, h4b, Nat.not_le.2 h4b]
  · simp [classifyResponse, Nat.not_le.2 (show status < 500 by omega),
      Nat.not_le.2 hok]
  · simp [fromResponseContent, hn]
  · simp [fromResponseContent, hn]

/-- Witness for C7 at concrete stub responses: a 503 yields the generic
server error, a 404 yields the parsed structured error, a 200 returns the
payload. -/
theorem classifyResponse_spec_witness :
    (500 ≤ 503 ∧
      classifyResponse (fun _ => none) 503 "x" [] =
        .error (mkClientError "aliyun oss server response status: 503")) ∧
    (400 ≤ 404 ∧ 404 < 500 ∧
      classifyResponse (fun _ => none) 404 "x" [] =
        .error (fromResponseContent (fun _ => none) "x")) ∧
    (200 < 400 ∧
      classifyResponse (fun _ => none) 200 "x" [("a", "b")] =
        .ok ⟨[("a", "b")], some "x"⟩) :=
  ⟨⟨by omega, (classifyResponse_spec (fun _ => none) 503 "x" []).1 (by omega)⟩,
   ⟨by omega, by omega,
     (classifyResponse_spec (fun _ => none) 404 "x" []).2.1 (by omega) (by omega)⟩,
   ⟨by omega, (classifyResponse_spec (fun _ => none) 200 "x" [("a", "b")]).2.2.1
     (by omega)⟩⟩

/-! ## The sort used for canonicalization -/

theorem sorted_keys_jsSortEntries {β : Type} (l : List (String × β)) :
    List.Sorted localeLe ((jsSortEntries l).map Prod.fst) :=
  List.Pairwise.map Prod.fst (fun _ _ h => h)
    (List.sorted_insertionSort entryLe l)

theorem sorted_strict_of_nodup {β : Type} (l : List (String × β))
    (hs : List.Sorted entryLe l) (hnd : (l.map Prod.fst).Nodup) :
    List.Pairwise (fun a b : String × β => localeLt a.1 b.1) l := by
  have hnd' : l.Pairwise (fun a b => a.1 ≠ b.1) := List.pairwise_map.1 hnd
  exact (hs.and hnd').imp (fun h => ⟨h.1, h.2⟩)

/-- Two permuted entry lists with duplicate-free keys sort identically: the
stable result of the sort is determined by the key order alone. -/
theorem jsSortEntries_perm_invariant {β : Type} (l1 l2 : List (String × β))
    (hp : l1.Perm l2) (hnd : (l1.map Prod.fst).Nodup) :
    jsSortEntries l1 = jsSortEntries l2 := by
  haveI : IsAntisymm (String × β) (fun a b => localeLt a.1 b.1) :=
    ⟨fun a b h1 h2 => absurd (localeLe_antisymm h1.1 h2.1) h1.2⟩
  have hnd2 : (l2.map Prod.fst).Nodup := ((hp.map Prod.fst).nodup_iff).1 hnd
  have hperm : (jsSortEntries l1).Perm (jsSortEntries l2) :=
    (List.perm_insertionSort entryLe l1).trans
      (hp.trans (List.perm_insertionSort entryLe l2).symm)
  have hs1 := sorted_strict_of_nodup _ (List.sorted_insertionSort entryLe l1)
    (((List.perm_insertionSort entryLe l1).map Prod.fst).nodup_iff.2 hnd)
  have hs2 := sorted_strict_of_nodup _ (List.sorted_insertionSort entryLe l2)
    (((List.perm_insertionSort entryLe l2).map Prod.fst).nodup_iff.2 hnd2)
  exact List.eq_of_perm_of_sorted hperm hs1 hs2

/-! ## C2: the canonical query string -/

/-- C2 counterexample.  The sort is `localeCompare`, not ordinal: on the map
with keys `B` and `a` the code puts `a` first (case-insensitive primary pass)
while ordinal order puts `B` (code 66) before `a` (code 97), so the claimed
ordinal output differs from what the code produces. -/
theorem buildCanonicalQueryString_not_ordinal :
    buildCanonicalQueryString
        (some [("B", QueryValue.str "1"), ("a", QueryValue.str "2")]) = "a=2&B=1" ∧
    ordinalCanonicalQueryString
        [("B", QueryValue.str "1"), ("a", QueryValue.str "2")] = "B=1&a=2" ∧
    buildCanonicalQueryString
        (some [("B", QueryValue.str "1"), ("a", QueryValue.str "2")]) ≠
      ordinalCanonicalQueryString
        [("B", QueryValue.str "1"), ("a", QueryValue.str "2")] :=
  ⟨by decide, by decide, by decide⟩

/-- C2 (amended).  The canonical query string renders the entries sorted by
key ascending under the JS locale comparison (which agrees with ordinal order
on the all-lowercase keys this SDK produces); a `null`/`undefined`/blank
value is emitted as the bare key and every other value as
`key=percent-encoded-value`; entries are joined with `&`; an absent or empty
query yields the empty string; including both concrete examples. -/
theorem buildCanonicalQueryString_spec (q : List (String × QueryValue))
    (e : String × QueryValue) :
    buildCanonicalQueryString none = "" ∧
    buildCanonicalQueryString (some []) = "" ∧
    buildCanonicalQueryString (some q) =
      jsJoin "&" ((jsSortEntries q).map renderQueryEntry) ∧
    List.Sorted localeLe ((jsSortEntries q).map Prod.fst) ∧
    (jsSortEntries q).Perm q ∧
    renderQueryEntry e = specRenderQueryEntry e ∧
    buildCanonicalQueryString
      (some [("b", QueryValue.str "2"), ("a", QueryValue.null)]) = "a&b=2" ∧
    buildCanonicalQueryString
      (some [("max-keys", QueryValue.num 100), ("marker", QueryValue.undefined)]) =
      "marker&max-keys=100" :=
  ⟨rfl, by decide, rfl, sorted_keys_jsSortEntries q, List.perm_insertionSort _ q,
    renderQueryEntry_eq_spec e, by decide, by decide⟩

/-! ## C3: the canonical header block -/

/-- C3 counterexample.  Two distinct keys that coincide after lower-casing
(`Host` and `host`) are kept in input order by the stable sort, so re-ordering
the entries of the input map changes the output (and the output keys are not
strictly sorted, as `host` appears twice). -/
theorem buildCanonicalHeaders_not_permutation_invariant :
    ([("Host", "a"), ("host", "b")] : List (String × String)).Perm
      [("host", "b"), ("Host", "a")] ∧
    buildCanonicalHeaders (some [("Host", "a"), ("host", "b")]) =
      "host:a\nhost:b\n" ∧
    buildCanonicalHeaders (some [("host", "b"), ("Host", "a")]) =
      "host:b\nhost:a\n" ∧
    buildCanonicalHeaders (some [("Host", "a"), ("host", "b")]) ≠
      buildCanonicalHeaders (some [("host", "b"), ("Host", "a")]) :=
  ⟨by decide, by decide, by decide, by decide⟩

/-- C3 (amended).  `buildCanonicalHeaders` lower-cases each key, trims each
value, sorts by lower-cased key ascending (under the code locale
comparator), joins the `key:value` lines with `\n` and appends a trailing
`\n`, so an empty or absent header set yields exactly `"\n"`; and the output
is invariant under re-ordering of the input entries provided the keys remain
pairwise distinct after lower-casing (with case-colliding keys the stable
sort preserves input order, see the counterexample). -/
theorem buildCanonicalHeaders_spec (hs1 hs2 : List (String × String)) :
    buildCanonicalHeaders none = "\n" ∧
    buildCanonicalHeaders (some []) = "\n" ∧
    (buildCanonicalHeaders (some hs1) =
      jsJoin "\n"
        ((jsSortEntries (hs1.map (fun e => (jsToLowerCase e.1, jsTrim e.2)))).map
          (fun e => e.1 ++ ":" ++ e.2)) ++ "\n") ∧
    List.Sorted localeLe
      ((jsSortEntries (hs1.map (fun e => (jsToLowerCase e.1, jsTrim e.2)))).map
        Prod.fst) ∧
    (hs1.Perm hs2 → (hs1.map (fun e => jsToLowerCase e.1)).Nodup →
      buildCanonicalHeaders (some hs1) = buildCanonicalHeaders (some hs2)) := by
  refine ⟨rfl, by decide, rfl, sorted_keys_jsSortEntries _, fun hp hnd => ?_⟩
  have hp2 : (hs1.map (fun e => (jsToLowerCase e.1, jsTrim e.2))).Perm
      (hs2.map (fun e => (jsToLowerCase e.1, jsTrim e.2))) := hp.map _
  have hnd' : ((hs1.map (fun e => (jsToLowerCase e.1, jsTrim e.2))).map
      Prod.fst).Nodup := by
    simpa [List.map_map, Function.comp] using hnd
  simp only [buildCanonicalHeaders, jsSortEntries_perm_invariant _ _ hp2 hnd']

/-- Witness for C3 (amended) at a concrete header map: re-ordering two
headers with distinct lower-cased keys leaves the canonical block unchanged. -/
theorem buildCanonicalHeaders_spec_witness :
    ([("Content-Type", "text/plain"), ("x-oss-date", "d")] :
        List (String × String)).Perm
      [("x-oss-date", "d"), ("Content-Type", "text/plain")] ∧
    ([("Content-Type", "text/plain"), ("x-oss-date", "d")].map
      (fun e => jsToLowerCase e.1)).Nodup ∧
    buildCanonicalHeaders
        (some [("Content-Type", "text/plain"), ("x-oss-date", "d")]) =
      buildCanonicalHeaders
        (some [("x-oss-date", "d"), ("Content-Type", "text/plain")]) :=
  ⟨by decide, by decide,
    (buildCanonicalHeaders_spec _ _).2.2.2.2 (by decide) (by decide)⟩

/-! ## C5: header selection and the AdditionalHeaders component -/

theorem signedHeaderTest_iff (k : String) :
    signedHeaderTest k = true ↔ specSignedHeaderKey k := by
  simp only [signedHeaderTest, specSignedHeaderKey, Bool.or_eq_true,
    decide_eq_true_eq]
  tauto

/-- C5.  The headers included in signing are exactly the assembled entries
whose lower-cased key is `content-type`, `content-md5` or `host` or starts
with `x-oss-`; and the AdditionalHeaders component is exactly the lower-cased
keys of that same set, sorted ascending, joined with `;`. -/
theorem headersToSign_spec (allHeaders : List (String × String))
    (e : String × String) :
    (e ∈ headersToSign allHeaders ↔ e ∈ allHeaders ∧ specSignedHeaderKey e.1) ∧
    List.Sorted localeLe
      (List.insertionSort localeLe
        (((headersToSign allHeaders).map Prod.fst).map jsToLowerCase)) ∧
    (List.insertionSort localeLe
      (((headersToSign allHeaders).map Prod.fst).map jsToLowerCase)).Perm
      (((headersToSign allHeaders).map Prod.fst).map jsToLowerCase) ∧
    additionalHeadersOf (headersToSign allHeaders) =
      jsJoin ";"
        (List.insertionSort localeLe
          (((headersToSign allHeaders).map Prod.fst).map jsToLowerCase)) := by
  refine ⟨?_, List.sorted_insertionSort _ _, List.perm_insertionSort _ _, rfl⟩
  rw [headersToSign, List.mem_filter, signedHeaderTest_iff]

/-! ## C6: base headers, merge precedence, content-length forcing -/

theorem objGet_objSet (m : List (String × String)) (k v k' : String) :
    objGet (objSet m k v) k' = if k' = k then some v else objGet m k' := by
  induction m with
  | nil => by_cases h : k' = k <;> simp [objSet, objGet, h, eq_comm]
  | cons e m ih =>
    by_cases he : e.1 = k <;> by_cases h : k' = k <;> by_cases he' : e.1 = k' <;>
      simp_all [objSet, objGet, eq_comm]

theorem objGet_objAssign (base src : List (String × String)) (k : String)
    (hnd : (src.map Prod.fst).Nodup) :
    objGet (objAssign base src) k =
      (objGet src k).elim (objGet base k) some := by
  induction src generalizing base with
  | nil => simp [objAssign, objGet]
  | cons e src ih =>
    have hnd' : (src.map Prod.fst).Nodup := by
      simp only [List.map_cons, List.nodup_cons] at hnd; exact hnd.2
    have hmem : e.1 ∉ src.map Prod.fst := by
      simp only [List.map_cons, List.nodup_cons] at hnd; exact hnd.1
    have hstep : objAssign base (e :: src) = objAssign (objSet base e.1 e.2) src := by
      simp [objAssign]
    by_cases h : e.1 = k
    · subst h
      rw [hstep, ih _ hnd']
      have hnone : objGet src e.1 = none := by
        unfold objGet
        rw [Option.map_eq_none', List.find?_eq_none]
        intro x hx
        simp only [decide_eq_true_eq]
        intro hx1
        exact hmem (hx1 ▸ List.mem_map_of_mem Prod.fst hx)
      have hhead : objGet (e :: src) e.1 = some e.2 := by
        simp [objGet]
      rw [hnone, hhead]
      simp only [Option.elim]
      rw [objGet_objSet, if_pos rfl]
    · rw [hstep, ih _ hnd']
      have h1 : objGet (objSet base e.1 e.2) k = objGet base k := by
        rw [objGet_objSet]; simp [Ne.symm h]
      have h2 : objGet (e :: src) k = objGet src k := by
        simp [objGet, h]
      rw [h1, h2]

/-- C6.  `doRequest` assembles the five base headers (`date`, `host`,
`x-sdk-client`, `x-oss-content-sha256: UNSIGNED-PAYLOAD`, `x-oss-date`),
merged with the caller-supplied headers so that on a key collision the
value of the caller wins; a PUT without body gets `content-length: 0`; and the
`host` domain is the endpoint with the bucket prefix omitted when absent. -/
theorem assembleAllHeaders_spec
    (httpDate domainName dateTimeString endpoint b : String)
    (callerHeaders : List (String × String)) (method : String) (hasBody : Bool)
    (hnd : (callerHeaders.map Prod.fst).Nodup) :
    (objGet (assembleAllHeaders httpDate domainName dateTimeString callerHeaders
        method hasBody) "date" =
      some ((objGet callerHeaders "date").getD httpDate)) ∧
    (objGet (assembleAllHeaders httpDate domainName dateTimeString callerHeaders
        method hasBody) "host" =
      some ((objGet callerHeaders "host").getD domainName)) ∧
    (objGet (assembleAllHeaders httpDate domainName dateTimeString callerHeaders
        method hasBody) "x-sdk-client" =
      some ((objGet callerHeaders "x-sdk-client").getD "deno/0.1.0")) ∧
    (objGet (assembleAllHeaders httpDate domainName dateTimeString callerHeaders
        method hasBody) "x-oss-content-sha256" =
      some ((objGet callerHeaders "x-oss-content-sha256").getD "UNSIGNED-PAYLOAD")) ∧
    (objGet (assembleAllHeaders httpDate domainName dateTimeString callerHeaders
        method hasBody) "x-oss-date" =
      some ((objGet callerHeaders "x-oss-date").getD dateTimeString)) ∧
    (method = "PUT" → hasBody = false →
      objGet (assembleAllHeaders httpDate domainName dateTimeString callerHeaders
        method hasBody) "content-length" = some "0") ∧
    domainNameOf none endpoint = endpoint ∧
    (b ≠ "" → domainNameOf (some b) endpoint = b ++ "." ++ endpoint) := by
  have hall : ∀ (k0 d : String),
      objGet [("date", httpDate), ("host", domainName),
        ("x-sdk-client", "deno/0.1.0"),
        ("x-oss-content-sha256", "UNSIGNED-PAYLOAD"),
        ("x-oss-date", dateTimeString)] k0 = some d →
      k0 ≠ "content-length" →
      objGet (assembleAllHeaders httpDate domainName dateTimeString callerHeaders
        method hasBody) k0 = some ((objGet callerHeaders k0).getD d) := by
    intro k0 d hb hk
    unfold assembleAllHeaders
    split
    · rw [objGet_objSet, if_neg hk, objGet_objAssign _ _ _ hnd, hb]
      cases objGet callerHeaders k0 <;> simp
    · rw [objGet_objAssign _ _ _ hnd, hb]
      cases objGet callerHeaders k0 <;> simp
  refine ⟨hall "date" httpDate (by simp [objGet]) (by decide),
    hall "host" domainName (by simp [objGet]) (by decide),
    hall "x-sdk-client" "deno/0.1.0" (by simp [objGet]) (by decide),
    hall "x-oss-content-sha256" "UNSIGNED-PAYLOAD" (by simp [objGet]) (by decide),
    hall "x-oss-date" dateTimeString (by simp [objGet]) (by decide),
    fun hput hbody => ?_, by simp [domainNameOf, jsTruthy], fun hb => ?_⟩
  · subst hput; subst hbody
    unfold assembleAllHeaders
    split
    · rw [objGet_objSet, if_pos rfl]
    · next hcond => exact absurd (by decide) hcond
  · simp [domainNameOf, jsTruthy, hb]

/-- Witness for C6 at a concrete request: a caller-supplied `x-oss-date`
overrides the computed one, the other base headers keep their defaults, and a
bodyless PUT carries `content-length: 0`. -/
theorem assembleAllHeaders_spec_witness :
    (objGet (assembleAllHeaders "HD" "DN" "TS" [("x-oss-date", "o")] "PUT" false)
        "date" = some ((objGet [("x-oss-date", "o")] "date").getD "HD")) ∧
    (objGet (assembleAllHeaders "HD" "DN" "TS" [("x-oss-date", "o")] "PUT" false)
        "x-oss-date" = some ((objGet [("x-oss-date", "o")] "x-oss-date").getD "TS")) ∧
    (objGet (assembleAllHeaders "HD" "DN" "TS" [("x-oss-date", "o")] "PUT" false)
        "content-length" = some "0") ∧
    domainNameOf (some "bkt") "ep" = "bkt" ++ "." ++ "ep" ∧
    (objGet [("x-oss-date", "o")] "x-oss-date").getD "TS" = "o" := by
  have h := assembleAllHeaders_spec "HD" "DN" "TS" "ep" "bkt" [("x-oss-date", "o")]
    "PUT" false (by decide)
  exact ⟨h.1, h.2.2.2.2.1, h.2.2.2.2.2.1 rfl rfl, h.2.2.2.2.2.2.2 (by decide),
    by decide⟩

/-! ## C8: sequential pagination of listAllBuckets -/

/-- C8.  The listing loop issues one page request per iteration, recording
the requested markers in order; it stops as soon as the page just received
does not have both a truthy `isTruncated` and a truthy `nextMarker`, and
otherwise issues the next request with the marker taken from that response.
For the two-page scenario (page 1 truncated with marker `m1`, page 2 final)
it issues exactly the two requests, in order, and returns the buckets of page 1
followed by those of page 2. -/
theorem listAllBuckets_spec {β : Type}
    (server : Option String → ListBucketsPage β) (b1 b2 : List β) (fuel : Nat)
    (h1 : server none = ⟨b1, some true, some "m1"⟩)
    (h2 : server (some "m1") = ⟨b2, some false, none⟩) :
    listAllBuckets server (fuel + 2) = some (b1 ++ b2, [none, some "m1"]) ∧
    (∀ (srv : Option String → ListBucketsPage β) (f : Nat)
      (marker : Option String) (acc : List β) (trace : List (Option String)),
      (truncatedTruthy (srv (if jsTruthy marker then marker else none)).isTruncated &&
          jsTruthy (srv (if jsTruthy marker then marker else none)).nextMarker) = false →
      listAllBucketsLoop srv (f + 1) marker acc trace =
        some (acc ++ (srv (if jsTruthy marker then marker else none)).buckets,
          trace ++ [if jsTruthy marker then marker else none])) ∧
    (∀ (srv : Option String → ListBucketsPage β) (f : Nat)
      (marker : Option String) (acc : List β) (trace : List (Option String)),
      (truncatedTruthy (srv (if jsTruthy marker then marker else none)).isTruncated &&
          jsTruthy (srv (if jsTruthy marker then marker else none)).nextMarker) = true →
      listAllBucketsLoop srv (f + 1) marker acc trace =
        listAllBucketsLoop srv f
          (srv (if jsTruthy marker then marker else none)).nextMarker
          (acc ++ (srv (if jsTruthy marker then marker else none)).buckets)
          (trace ++ [if jsTruthy marker then marker else none])) := by
  refine ⟨?_, ?_, ?_⟩
  · have e1 : listAllBucketsLoop server (fuel + 2) none [] [] =
        listAllBucketsLoop server (fuel + 1) (some "m1") b1 [none] := by
      show listAllBucketsLoop server (fuel + 1 + 1) none [] [] = _
      rw [listAllBucketsLoop]
      simp [jsTruthy, h1, truncatedTruthy]
    have e2 : listAllBucketsLoop server (fuel + 1) (some "m1") b1 [none] =
        some (b1 ++ b2, [none, some "m1"]) := by
      rw [listAllBucketsLoop]
      simp [jsTruthy, h2, truncatedTruthy]
    exact e1.trans e2
  · intro srv f marker acc trace hc
    rw [listAllBucketsLoop]
    simp [hc]
  · intro srv f marker acc trace hc
    rw [listAllBucketsLoop]
    simp [hc]

/-- Witness for C8: a concrete two-page stub server is queried exactly twice,
in order, and the accumulator concatenates the pages. -/
theorem listAllBuckets_spec_witness :
    listAllBuckets
        (fun m => if m = some "m1" then (⟨[3, 4], some false, none⟩ : ListBucketsPage Nat)
                  else ⟨[1, 2], some true, some "m1"⟩) 2 =
      some ([1, 2, 3, 4], [none, some "m1"]) :=
  (listAllBuckets_spec
    (fun m => if m = some "m1" then (⟨[3, 4], some false, none⟩ : ListBucketsPage Nat)
              else ⟨[1, 2], some true, some "m1"⟩)
    [1, 2] [3, 4] 0 (by simp) (by simp)).1

/-! ## C9: fail-fast validation of required arguments -/

/-- C9 counterexample.  `getObject` does not validate its local file path:
with a blank `localFilepath` and valid bucket/key the HTTP request is still
issued (and with a transport stub answering 200 the operation does not even
fail with a `ClientError`), contradicting the claim that every listed
operation fails before any network call when a required argument is blank. -/
theorem getObject_blank_filepath_counterexample :
    isBlank (some "") = true ∧
    (getObject (fun _ => ⟨200, "", true, []⟩) (fun _ => none) true
        (some "b") (some "k") (some "") []).1 =
      [{ method := "GET", bucketName := some "b", objectKey := some "k" }] ∧
    (getObject (fun _ => ⟨200, "", true, []⟩) (fun _ => none) true
        (some "b") (some "k") (some "") []).1 ≠ [] ∧
    (getObject (fun _ => ⟨200, "", true, []⟩) (fun _ => none) true
        (some "b") (some "k") (some "") []).2 = .ok () := by
  refine ⟨by decide, by decide, by decide, rfl⟩

/-- C9 (amended).  `createFolder`, `putStream`, `putObject`/`putFile`,
`headObject`, `getObject`, `deleteObject` and `signatureUrl` throw a
`ClientError` before issuing any HTTP request when a required bucket name,
object key, method or (for the upload operations) file path is
null/undefined/blank — with the exception that `getObject` does not validate
its local file path (see the counterexample); its bucket/key validation is
still fail-fast.  The universally quantified dispatcher arguments show no
request is issued. -/
theorem validation_spec
    (doReq : RequestConfig → Except ClientErrorData ResponseResult)
    (send : RequestConfig → RawResponse)
    (parseError : String → Option ErrorNode) (createOk : Bool)
    (presign : RequestConfig → String) (openFile : OpenOutcome)
    (md5 : String) (mime : Option String)
    (b k path m vId : Option String) (po : Option PutObjectOptions)
    (ho go : List (String × String)) (so : SignatureOptions) :
    ((isBlank b || isBlank k) = true →
      createFolder doReq b k =
        ([], .error (mkClientError
          "invalid bucket name or folder path to create a new folder")) ∧
      putStream doReq b k po =
        ([], .error (mkClientError
          "invalid bucket name or folder path to put object")) ∧
      headObject doReq b k ho =
        ([], .error (mkClientError
          "bucketName and objectKey are required, can not be empty")) ∧
      getObject send parseError createOk b k path go =
        ([], .error (.client (mkClientError
          "bucketName and objectKey are required, can not be empty"))) ∧
      deleteObject doReq b k vId =
        ([], .error (mkClientError
          "bucketName and objectKey are required, can not be empty")) ∧
      (putFile doReq openFile md5 mime b k path po).requests = []) ∧
    (isBlank path = true →
      putFile doReq openFile md5 mime b k path po =
        ⟨[], false, false,
          .error (.client (mkClientError "filePath must NOT be emtpy"))⟩) ∧
    ((isBlank m || isBlank b || isBlank k) = true →
      signatureUrl presign m b k so =
        .error (mkClientError
          "method, bucketName and objectKey are required, can not be empty")) := by
  refine ⟨fun h => ?_, fun h => ?_, fun h => ?_⟩
  · refine ⟨by simp [createFolder, h], by simp [putStream, h],
      by simp [headObject, h], by simp [getObject, h], by simp [deleteObject, h], ?_⟩
    by_cases hp : isBlank path = true
    · simp [putFile, hp]
    · cases openFile with
      | notFound => simp [putFile, hp]
      | permissionDenied => simp [putFile, hp]
      | otherFailure => simp [putFile, hp]
      | opened isFile size =>
        cases isFile
        · simp [putFile, hp]
        · by_cases hz : size = 0
          · simp [putFile, hp, hz]
          · simp [putFile, putStream, hp, hz, h]
  · simp [putFile, h]
  · simp [signatureUrl, h]

/-- Witness for C9 (amended) at blank concrete arguments. -/
theorem validation_spec_witness :
    (isBlank (some "") || isBlank (some "k")) = true ∧
    isBlank (some " ") = true ∧
    createFolder (fun _ => .ok ⟨[], none⟩) (some "") (some "k") =
      ([], .error (mkClientError
        "invalid bucket name or folder path to create a new folder")) ∧
    (putFile (fun _ => .ok ⟨[], none⟩) (.opened true 5) "md5" none
        (some "") (some "k") (some " ") none) =
      ⟨[], false, false,
        .error (.client (mkClientError "filePath must NOT be emtpy"))⟩ ∧
    signatureUrl (fun _ => "url") (some "") (some "b") (some "k")
        { ttlSeconds := 60 } =
      .error (mkClientError
        "method, bucketName and objectKey are required, can not be empty") :=
  ⟨by decide, by decide,
    ((validation_spec (fun _ => .ok ⟨[], none⟩) (fun _ => ⟨200, "", true, []⟩)
      (fun _ => none) true (fun _ => "url") (.opened true 5) "md5" none
      (some "") (some "k") (some " ") (some "") none none [] [] { ttlSeconds := 60 }).1
      (by decide)).1,
    ((validation_spec (fun _ => .ok ⟨[], none⟩) (fun _ => ⟨200, "", true, []⟩)
      (fun _ => none) true (fun _ => "url") (.opened true 5) "md5" none
      (some "") (some "k") (some " ") (some "") none none [] [] { ttlSeconds := 60 }).2.1
      (by decide)),
    ((validation_spec (fun _ => .ok ⟨[], none⟩) (fun _ => ⟨200, "", true, []⟩)
      (fun _ => none) true (fun _ => "url") (.opened true 5) "md5" none
      (some "b") (some "k") (some " ") (some "") none none [] [] { ttlSeconds := 60 }).2.2
      (by decide))⟩

/-! ## C10: putFile rejects non-regular and empty files -/

/-- C10.  When the opened path is not a regular file, or is a regular file of
size 0, `putFile`/`putObject` fails with a `ClientError`, issues no HTTP
request, and the opened handle is closed by the `finally` block on both error
paths. -/
theorem putFile_file_checks_spec
    (doReq : RequestConfig → Except ClientErrorData ResponseResult)
    (md5 : String) (mime : Option String) (b k path : Option String)
    (po : Option PutObjectOptions) (size : Nat)
    (hpath : isBlank path = false) :
    putFile doReq (.opened false size) md5 mime b k path po =
      ⟨[], true, true,
        .error (.client (mkClientError
          (path.getD "" ++ " is not a regular file")))⟩ ∧
    putFile doReq (.opened true 0) md5 mime b k path po =
      ⟨[], true, true,
        .error (.client (mkClientError
          (path.getD "" ++
            " length is 0, can not put to OSS as a regular file")))⟩ := by
  constructor <;> simp [putFile, hpath]

/-- Witness for C10 at a concrete path: a directory-like open and an empty
file are both rejected with the handle closed and no request issued. -/
theorem putFile_file_checks_spec_witness :
    isBlank (some "f.txt") = false ∧
    putFile (fun _ => .ok ⟨[], none⟩) (.opened false 7) "md5" none
        (some "b") (some "k") (some "f.txt") none =
      ⟨[], true, true,
        .error (.client (mkClientError ("f.txt" ++ " is not a regular file")))⟩ ∧
    putFile (fun _ => .ok ⟨[], none⟩) (.opened true 0) "md5" none
        (some "b") (some "k") (some "f.txt") none =
      ⟨[], true, true,
        .error (.client (mkClientError
          ("f.txt" ++ " length is 0, can not put to OSS as a regular file")))⟩ :=
  ⟨by decide,
    (putFile_file_checks_spec (fun _ => .ok ⟨[], none⟩) "md5" none
      (some "b") (some "k") (some "f.txt") none 7 (by decide)).1,
    (putFile_file_checks_spec (fun _ => .ok ⟨[], none⟩) "md5" none
      (some "b") (some "k") (some "f.txt") none 7 (by decide)).2⟩

end AliyunOss
